import Mathlib

/-!
A verification development for the Lox-family tree-walking interpreter
(Rust sources: `scanner.rs`, `parser.rs`, `evaluator.rs`, `environment.rs`,
`interpreter.rs`, `formatters.rs`, `runner.rs`).

Modelling conventions, stated once:

* Rust `f64` number payloads are modelled as `ℚ` throughout the
  lexer/parser/evaluator pipeline.  Every numeric literal is a finite
  decimal, which `ℚ` represents exactly; none of the theorems below
  depends on rounding behaviour of `f64`.  The single claim that is
  specifically about IEEE-754 division is additionally settled against a
  `Float`-typed mirror of the relevant evaluator arm (`evalSlashFloat`).
* `HashMap<String, EnvironmentValue>` is modelled as an association list
  with unique keys; `insert` is modelled exactly as the source performs
  it (`remove` then `insert`, i.e. erase the key and cons the new pair).
* `Environment.enclosing` is `Box`-owned in the evaluator
  (`evaluator.rs` writes `Some(Box::new(environment.clone()))` and moves
  the chain back out in `migrate_environment`), so `clone` is a deep
  copy and the whole interpreter state is a pure value; the evaluator is
  modelled as a pure state-passing function.
* Process exit (`exit(65)` / `exit(70)`) is modelled with `Except`: an
  error value carries the exit code together with the list of diagnostic
  lines the exiting function printed (`[]` whenever the corresponding
  `println!` in the source is commented out, as in
  `Evaluator::invalid_error` and `Environment::environment_error`).
  `stdout` produced by `print` statements is threaded as a `List String`
  of printed lines.
* Possible divergence (the `while` loop of the language, the scanner and
  parser loops) is handled with a fuel parameter; `RunErr.noFuel` marks
  fuel exhaustion and is never confused with a program outcome.
* Wall-clock time (`Clock::call`, `SystemTime::now`) is outside the
  model; the native clock is modelled as returning the number `0`.  No
  theorem below depends on the value.
-/

namespace LoxIntp

/-- Token kinds, from `interpreter.rs` (`enum TokenType`). -/
inductive TokenType where
  | LEFT_PAREN | RIGHT_PAREN | LEFT_BRACE | RIGHT_BRACE
  | COMMA | DOT | MINUS | PLUS | SEMICOLON | SLASH | STAR
  | BANG | BANG_EQUAL | EQUAL | EQUAL_EQUAL
  | GREATER | GREATER_EQUAL | LESS | LESS_EQUAL
  | IDENTIFIER | STRING | NUMBER
  | AND | CLASS | ELSE | FALSE | FUN | FOR | IF | NIL | OR
  | PRINT | RETURN | SUPER | THIS | TRUE | VAR | WHILE
  | EOF
  deriving DecidableEq, Repr

/-- Token literals, from `interpreter.rs` (`enum Literal`).  `Number`
carries the parsed value together with the fractional-digit count
recorded by the lexer (`(f64, usize)` in the source, `ℚ × ℕ` here). -/
inductive Lit where
  | String (s : String)
  | Number (f : ℚ × ℕ)
  | Bool (b : Bool)
  | Null
  | Nil
  deriving DecidableEq, Repr

/-- Tokens, from `interpreter.rs` (`struct Token`). -/
structure Token where
  token_type : TokenType
  lexeme : String
  literal : Option Lit
  line : Nat
  deriving DecidableEq, Repr

/-- The native clock (`struct Clock`), `interpreter.rs`. -/
structure Clock where
  deriving DecidableEq, Repr

/-- Native values stored in the environment (`enum Global`),
`interpreter.rs`. -/
inductive Global where
  | Clock (c : Clock)
  deriving DecidableEq, Repr

mutual
/-- The fused expression/statement AST (`enum Expr`, `interpreter.rs`),
in source constructor order.  `Function` carries an optional captured
environment, which makes `Expr` mutually recursive with
`Environment`. -/
inductive Expr where
  | Bool (b : Bool)
  | Logical (left right : Expr) (op : TokenType)
  | Literal (l : Lit)
  | Print (e : Expr)
  | Return (keyword : Token) (value : Expr)
  | Function (name : Token) (params : List Token) (body : List Expr)
      (environment : Option Environment)
  | Variable (name : String) (value : Expr)
  | Block (stmts : List Expr)
  | While (condition body : Expr)
  | Var (t : Token)
  | If (condition then_branch : Expr) (else_branch : Option Expr)
  | Assign (name : String) (value : Expr)
  | Increment (e : Expr)
  | Number (n : ℚ)
  | Nil
  | String (s : String)
  | Unary (operator : Token) (right : Expr)
  | Binary (operator : Token) (right left : Expr)
  | Grouping (es : List Expr)
  | Call (callee : Expr) (paren : Token) (args : List Expr)

/-- `struct Environment` (`environment.rs`): a scope map plus an
optional enclosing scope.  The evaluator `Box`-owns the enclosing link
(see the file header), so the chain is a pure value. -/
inductive Environment where
  | mk (map : List (String × EnvironmentValue)) (enclosing : Option Environment)

/-- `enum EnvironmentValue` (`environment.rs`). -/
inductive EnvironmentValue where
  | Expr (e : Expr)
  | Global (g : Global)
end

namespace Environment

/-- The scope's own map. -/
def map : Environment → List (String × EnvironmentValue)
  | .mk m _ => m

/-- The enclosing scope, if any. -/
def enclosing : Environment → Option Environment
  | .mk _ e => e

end Environment

/-- `HashMap::contains_key` on the association-list model. -/
def mapContains (m : List (String × EnvironmentValue)) (name : String) : Bool :=
  m.any (fun p => p.1 == name)

/-- `HashMap::get` on the association-list model. -/
def mapGet (m : List (String × EnvironmentValue)) (name : String) :
    Option EnvironmentValue :=
  (m.find? (fun p => p.1 == name)).map (fun p => p.2)

/-- `HashMap::remove` on the association-list model. -/
def mapRemove (m : List (String × EnvironmentValue)) (name : String) :
    List (String × EnvironmentValue) :=
  m.filter (fun p => !(p.1 == name))

/-- Run-time failure: `exitc code emitted` models `process::exit(code)`
together with the diagnostic lines printed by the exiting function
(`[]` when the `println!` is commented out in the source); `noFuel` is
the fuel-exhaustion marker of the model; `crashed` models a Rust panic
(`unwrap` on `None`, out-of-bounds index). -/
inductive RunErr where
  | exitc (code : Nat) (emitted : List String)
  | noFuel
  | crashed
  deriving DecidableEq, Repr

namespace Environment

/-- `Environment::environment_error`: the `println!` is commented out in
the source, so the message is dropped and the process exits with 70. -/
def environmentError {α : Type} (_message : String) : Except RunErr α :=
  .error (.exitc 70 [])

/-- `Environment::check_definition`. -/
def check_definition (env : Environment) (name : String) : Bool :=
  mapContains env.map name

/-- `Environment::define`: insert or overwrite in the current scope only
(the source removes the key first when present, then inserts). -/
def define : Environment → String → EnvironmentValue → Environment
  | .mk m enc, name, value =>
    if mapContains m name then .mk ((name, value) :: mapRemove m name) enc
    else .mk ((name, value) :: m) enc

/-- `Environment::assign`: update the nearest enclosing scope that
defines `name`; exit 70 (silently) when no scope does. -/
def assign : Environment → String → EnvironmentValue → Except RunErr Environment
  | .mk m enc, name, value =>
    if mapContains m name then
      .ok (.mk ((name, value) :: mapRemove m name) enc)
    else
      match enc with
      | some e => do
        let e' ← e.assign name value
        .ok (.mk m (some e'))
      | none => environmentError ("Undefined variable '" ++ name ++ "'")

/-- `Environment::get`: the source checks `check_definition` and then
reads the map (one lookup in effect), walks the enclosing chain, and on
total failure calls `environment_error` with the formatted message
`[line L] Undefined variable 'name'` — which `environment_error`
discards before exiting 70. -/
def get : Environment → String → Nat → Except RunErr EnvironmentValue
  | .mk m enc, name, line =>
    match mapGet m name with
    | some v => .ok v
    | none =>
      match enc with
      | some e => e.get name line
      | none =>
        environmentError
          ("[line " ++ toString line ++ "] Undefined variable '" ++ name ++ "'")

/-- Whether some scope of the chain defines `name` (the predicate the
`assign`/`get` contracts quantify over). -/
def definedAnywhere : Environment → String → Bool
  | .mk m enc, name =>
    mapContains m name ||
      (match enc with
       | some e => e.definedAnywhere name
       | none => false)

end Environment

mutual
/-- Structural equality of expressions: the model of the derived
`PartialEq for Expr` that `Evaluator::is_equal` compares with. -/
def exprBeq : Expr → Expr → Bool
  | .Bool a, .Bool b => a == b
  | .Logical l1 r1 o1, .Logical l2 r2 o2 =>
    exprBeq l1 l2 && exprBeq r1 r2 && o1 == o2
  | .Literal a, .Literal b => a == b
  | .Print a, .Print b => exprBeq a b
  | .Return k1 v1, .Return k2 v2 => k1 == k2 && exprBeq v1 v2
  | .Function n1 p1 b1 e1, .Function n2 p2 b2 e2 =>
    n1 == n2 && p1 == p2 && exprListBeq b1 b2 && envOptBeq e1 e2
  | .Variable n1 v1, .Variable n2 v2 => n1 == n2 && exprBeq v1 v2
  | .Block s1, .Block s2 => exprListBeq s1 s2
  | .While c1 b1, .While c2 b2 => exprBeq c1 c2 && exprBeq b1 b2
  | .Var t1, .Var t2 => t1 == t2
  | .If c1 t1 e1, .If c2 t2 e2 =>
    exprBeq c1 c2 && exprBeq t1 t2 && exprOptBeq e1 e2
  | .Assign n1 v1, .Assign n2 v2 => n1 == n2 && exprBeq v1 v2
  | .Increment a, .Increment b => exprBeq a b
  | .Number a, .Number b => a == b
  | .Nil, .Nil => true
  | .String a, .String b => a == b
  | .Unary o1 r1, .Unary o2 r2 => o1 == o2 && exprBeq r1 r2
  | .Binary o1 r1 l1, .Binary o2 r2 l2 =>
    o1 == o2 && exprBeq r1 r2 && exprBeq l1 l2
  | .Grouping a, .Grouping b => exprListBeq a b
  | .Call c1 p1 a1, .Call c2 p2 a2 =>
    exprBeq c1 c2 && p1 == p2 && exprListBeq a1 a2
  | _, _ => false

/-- Elementwise `exprBeq` on expression lists. -/
def exprListBeq : List Expr → List Expr → Bool
  | [], [] => true
  | a :: as, b :: bs => exprBeq a b && exprListBeq as bs
  | _, _ => false

/-- `exprBeq` on optional expressions. -/
def exprOptBeq : Option Expr → Option Expr → Bool
  | none, none => true
  | some a, some b => exprBeq a b
  | _, _ => false

/-- Structural equality of environments. -/
def envBeq : Environment → Environment → Bool
  | .mk m1 e1, .mk m2 e2 => envMapBeq m1 m2 && envOptBeq e1 e2

/-- `envBeq` on optional environments. -/
def envOptBeq : Option Environment → Option Environment → Bool
  | none, none => true
  | some a, some b => envBeq a b
  | _, _ => false

/-- Structural equality of scope maps. -/
def envMapBeq :
    List (String × EnvironmentValue) → List (String × EnvironmentValue) → Bool
  | [], [] => true
  | (k1, v1) :: r1, (k2, v2) :: r2 =>
    k1 == k2 && envValBeq v1 v2 && envMapBeq r1 r2
  | _, _ => false

/-- Structural equality of environment values. -/
def envValBeq : EnvironmentValue → EnvironmentValue → Bool
  | .Expr a, .Expr b => exprBeq a b
  | .Global a, .Global b => a == b
  | _, _ => false
end

/-- Evaluation results (`enum EvaluatorReturn`, `interpreter.rs`). -/
inductive EvaluatorReturn where
  | Expr (e : Expr)
  | Global (g : Global)

/-- `Evaluator::is_truthy` (`evaluator.rs`): only `Nil` and
`Bool false` are falsey. -/
def is_truthy : Expr → Bool
  | .Nil => false
  | .Bool b => b
  | _ => true

/-- `Evaluator::is_equal`: the derived structural `==` on `Expr`. -/
def is_equal (left right : Expr) : Bool :=
  exprBeq left right

/-- `Expr::is_lox_callable` (`interpreter.rs`): inspects the *callee
AST node* (not the callee value). -/
def is_lox_callable (callee : Expr) : Bool :=
  match callee with
  | .Var _ => true
  | .Call _ _ _ => true
  | _ => false

/-- `LoxCallable::arity for Expr` (`interpreter.rs`). -/
def arity : Expr → Nat
  | .Function _ params _ _ => params.length
  | _ => 0

/-- `Evaluator::invalid_error`: the `println!` is commented out in the
source, so the message is dropped and the process exits with 70. -/
def invalid_error {α : Type} (_message : String) : Except RunErr α :=
  .error (.exitc 70 [])

/-- Rendering of a number by Rust's `Display for f64`
(`println!("{}", n)` in `runner.rs` / `interpreter.rs`).  Integral
values print without a decimal point, which is all the theorems below
evaluate; the non-integral branch stands in for the shortest
round-trip decimal of `f64` (a floating-point library behaviour outside
this discrete model — no theorem below inspects it). -/
def numToString (q : ℚ) : String :=
  if q.den = 1 then toString q.num else toString q

/-- `Runner::interpret` (`runner.rs`), invoked by the evaluator as
`runner::interpret(e)`: the lines printed for one evaluated statement.
Only `Print` nodes produce output; the catch-all arm of the inner match
writes `Invalid expression`. -/
def runner_interpret : Expr → List String
  | .Print e =>
    match e with
    | .String s => [s]
    | .Number n => [numToString n]
    | .Bool b => [toString b]
    | .Nil => ["nil"]
    | _ => ["Invalid expression"]
  | _ => []

/-- The value of the native clock; wall-clock time (`SystemTime::now`)
is outside the model (see file header). -/
def clockNow : ℚ := 0

mutual
/-- `Evaluator::evaluate`/`Evaluator::evaluator` (`evaluator.rs`; the
former delegates 1:1 to the latter, they are merged here): dispatches
`Expr::Var` through the environment and everything else through
`expr_match`.  Result triple: evaluation result, updated environment,
stdout lines printed during evaluation. -/
def evaluate : Nat → Expr → Environment → Option Expr →
    Except RunErr (EvaluatorReturn × Environment × List String)
  | 0, _, _, _ => .error .noFuel
  | fuel + 1, expr, env, fn_bind =>
    match expr with
    | .Var t => do
      let val ← env.get t.lexeme t.line
      match val with
      | .Expr e =>
        match e with
        | .Literal _ => do
          let (v, env', out) ← expr_match fuel e env fn_bind
          .ok (.Expr v, env', out)
        | .Function name params body environment =>
          .ok (.Expr (.Function name params body environment), env, [])
        | _ => .ok (.Expr e, env, [])
      | .Global g => .ok (.Global g, env, [])
    | _ => do
      let (v, env', out) ← expr_match fuel expr env fn_bind
      .ok (.Expr v, env', out)

/-- `Evaluator::expr_match` (`evaluator.rs`), arm for arm in source
order.  Comparisons of the source against `Expr::Nil` / `None` are by
constructor (both are nullary, so `PartialEq` agrees). -/
def expr_match : Nat → Expr → Environment → Option Expr →
    Except RunErr (Expr × Environment × List String)
  | 0, _, _, _ => .error .noFuel
  | fuel + 1, expr, env, fn_bind =>
    match expr with
    | .Literal l =>
      match l with
      | .Bool b => .ok (.Bool b, env, [])
      | .String s => .ok (.String s, env, [])
      | .Number n => .ok (.Number n.1, env, [])
      | _ => .ok (.Nil, env, [])
    | .Print e => do
      let (r, env', out) ← evaluate fuel e env fn_bind
      match r with
      | .Expr v => .ok (.Print v, env', out)
      | _ => .ok (.Nil, env', out)
    | .Logical left right operator => do
      let (l, env1, out1) ← expr_match fuel left env fn_bind
      match operator with
      | .OR =>
        if is_truthy l then .ok (l, env1, out1)
        else do
          let (r, env2, out2) ← expr_match fuel right env1 fn_bind
          .ok (r, env2, out1 ++ out2)
      | .AND =>
        if !(is_truthy l) then .ok (l, env1, out1)
        else do
          let (r, env2, out2) ← expr_match fuel right env1 fn_bind
          .ok (r, env2, out1 ++ out2)
      | _ => invalid_error "Logical error"
    | .Assign name value => do
      let (r, env1, out1) ← evaluate fuel value env fn_bind
      match r with
      | .Expr e => do
        let env2 ← env1.assign name (.Expr e)
        .ok (e, env2, out1)
      | _ => invalid_error "Assign error"
    | .Block vec => do
      let environment_clone : Environment := .mk [] (some env)
      let (return_expr, child, out) ← block_loop fuel vec environment_clone fn_bind
      match child.enclosing with
      | some prev => .ok (return_expr, prev, out)
      | none => .error .crashed
    | .Increment i => do
      let (r, env1, out1) ← evaluate fuel i env fn_bind
      match r with
      | .Expr e => .ok (e, env1, out1)
      | _ => invalid_error "Increment error"
    | .While condition body => do
      let (c, env1, out1) ← evaluate fuel condition env fn_bind
      match c with
      | .Expr e => do
        let (r, env2, out2) ← while_loop fuel condition body e env1 fn_bind
        .ok (r, env2, out1 ++ out2)
      | _ => .ok (.Nil, env1, out1)
    | .Function name params body _ =>
      let environment_copy := env
      let env' := env.define name.lexeme
        (.Expr (.Function name params body (some environment_copy)))
      .ok (.String ("<fn " ++ name.lexeme ++ ">"), env', [])
    | .Call callee _ args => do
      let (callee_ev, env1, out1) ← evaluate fuel callee env fn_bind
      let (arguments, env2, out2) ← eval_args fuel args env1 fn_bind
      match callee_ev with
      | .Expr e =>
        match e with
        | .Function _ _ _ _ =>
          if !(is_lox_callable callee) then
            invalid_error "Can only call functions and classes."
          else if arguments.length ≠ arity e then
            invalid_error ("Expected " ++ toString (arity e) ++
              " arguments but got " ++ toString arguments.length ++ ".")
          else do
            let (v, out3) ← call_fn fuel e arguments
            .ok (v, env2, out1 ++ out2 ++ out3)
        | _ => .error (.exitc 70 [])
      | .Global g =>
        match g with
        | .Clock _ =>
          if arguments.length ≠ 0 then
            invalid_error ("Expected 0 arguments but got " ++
              toString arguments.length ++ ".")
          else .ok (.Number clockNow, env2, out1 ++ out2)
    | .Return keyword value =>
      match value with
      | .Nil => .ok (.Return keyword .Nil, env, [])
      | _ => do
        let (r, env1, out1) ← evaluate fuel value env fn_bind
        match r with
        | .Expr e => .ok (.Return keyword e, env1, out1)
        | _ => .ok (.Return keyword .Nil, env1, out1)
    | .If condition then_branch else_branch => do
      let (c, env1, out1) ← evaluate fuel condition env fn_bind
      match c with
      | .Expr e =>
        if is_truthy e then do
          let (r, env2, out2) ← evaluate fuel then_branch env1 fn_bind
          match r with
          | .Expr v => .ok (v, env2, out1 ++ out2)
          | _ => .ok (.Nil, env2, out1 ++ out2)
        else
          match else_branch with
          | some eb => do
            let (r, env2, out2) ← evaluate fuel eb env1 fn_bind
            match r with
            | .Expr v => .ok (v, env2, out1 ++ out2)
            | _ => .ok (.Nil, env2, out1 ++ out2)
          | none => .ok (.Nil, env1, out1)
      | _ => invalid_error "If condition error"
    | .Variable name value => do
      let (r, env1, out1) ← evaluate fuel value env fn_bind
      match r with
      | .Expr e =>
        .ok (.Variable name e, env1.define name (.Expr e), out1)
      | _ => invalid_error "Variable error"
    | .Binary operator right left => do
      let (l, env1, out1) ← evaluate fuel left env fn_bind
      let (r, env2, out2) ← evaluate fuel right env1 fn_bind
      match l, r with
      | .Expr l, .Expr r =>
        let out := out1 ++ out2
        match operator.token_type with
        | .MINUS =>
          match l, r with
          | .Number n1, .Number n2 => .ok (.Number (n1 - n2), env2, out)
          | _, _ => invalid_error "Binary minus error"
        | .SLASH =>
          match l, r with
          | .Number n1, .Number n2 => .ok (.Number (n1 / n2), env2, out)
          | _, _ => invalid_error "Binary slash error"
        | .STAR =>
          match l, r with
          | .Number n1, .Number n2 => .ok (.Number (n1 * n2), env2, out)
          | _, _ => invalid_error "Binary star error"
        | .PLUS =>
          match l, r with
          | .Number n1, .Number n2 => .ok (.Number (n1 + n2), env2, out)
          | .String s1, .String s2 => .ok (.String (s1 ++ s2), env2, out)
          | _, _ => invalid_error "Binary plus error"
        | .GREATER =>
          match l, r with
          | .Number n1, .Number n2 => .ok (.Bool (decide (n1 > n2)), env2, out)
          | _, _ => invalid_error "Binary greater error"
        | .GREATER_EQUAL =>
          match l, r with
          | .Number n1, .Number n2 => .ok (.Bool (decide (n1 ≥ n2)), env2, out)
          | _, _ => invalid_error "Binary greater equal error"
        | .LESS =>
          match l, r with
          | .Number n1, .Number n2 => .ok (.Bool (decide (n1 < n2)), env2, out)
          | _, _ => invalid_error "Binary less error"
        | .LESS_EQUAL =>
          match l, r with
          | .Number n1, .Number n2 => .ok (.Bool (decide (n1 ≤ n2)), env2, out)
          | _, _ => invalid_error "Binary less equal error"
        | .EQUAL_EQUAL =>
          if is_equal l r then .ok (.Bool true, env2, out)
          else .ok (.Bool false, env2, out)
        | .BANG_EQUAL =>
          if is_equal l r then .ok (.Bool false, env2, out)
          else .ok (.Bool true, env2, out)
        | _ => .ok (.Nil, env2, out)
      | _, _ => .ok (.Nil, env2, out1 ++ out2)
    | .Unary operator right => do
      let (r, env1, out1) ← evaluate fuel right env fn_bind
      match r with
      | .Expr e =>
        match operator.token_type with
        | .BANG =>
          match e with
          | .Bool b => .ok (.Bool !b, env1, out1)
          | .Unary _ _ => do
            -- the source re-evaluates the *original* right operand here
            let (r2, env2, out2) ← evaluate fuel right env1 fn_bind
            match r2 with
            | .Expr e_u => .ok (e_u, env2, out1 ++ out2)
            | _ => .ok (.Nil, env2, out1 ++ out2)
          | .Nil => .ok (.Bool true, env1, out1)
          | _ => .ok (.Nil, env1, out1)
        | .MINUS =>
          match e with
          | .Number n => .ok (.Number (-n), env1, out1)
          | _ => invalid_error "Unary minus error"
        | _ => .ok (.Nil, env1, out1)
      | _ => .ok (.Nil, env1, out1)
    | .Grouping exprs =>
      match exprs with
      | e0 :: _ => do
        let (r, env1, out1) ← evaluate fuel e0 env fn_bind
        match r with
        | .Expr e_u => .ok (e_u, env1, out1)
        | _ => .ok (.Nil, env1, out1)
      | [] => .error .crashed          -- `&exprs[0]` panics on empty
    | _ => .ok (.Nil, env, [])

/-- The statement loop of the `Expr::Block` arm: evaluate each
statement against the child scope, stop early at a surfacing `Return`
(exit 70 when there is no enclosing function binding), and pass every
other result to `runner::interpret`. -/
def block_loop : Nat → List Expr → Environment → Option Expr →
    Except RunErr (Expr × Environment × List String)
  | 0, _, _, _ => .error .noFuel
  | fuel + 1, stmts, env, fn_bind =>
    match stmts with
    | [] => .ok (.Nil, env, [])
    | stmt :: rest => do
      let (r, env1, out1) ← evaluate fuel stmt env fn_bind
      match r with
      | .Expr e =>
        match e with
        | .Return keyword v =>
          match fn_bind with
          | some _ => .ok (.Return keyword v, env1, out1)
          | none => invalid_error "Return error"
        | _ => do
          let (res, env2, out2) ← block_loop fuel rest env1 fn_bind
          .ok (res, env2, out1 ++ runner_interpret e ++ out2)
      | _ => do
        -- non-`Expr` results leave `evaluated = Expr::Nil`
        let (res, env2, out2) ← block_loop fuel rest env1 fn_bind
        .ok (res, env2, out1 ++ runner_interpret .Nil ++ out2)

/-- The `while` loop of the `Expr::While` arm: `e` is the last value
of the condition; the body result surfaces `Return`, otherwise goes to
`runner::interpret`, then the condition is re-evaluated. -/
def while_loop : Nat → Expr → Expr → Expr → Environment → Option Expr →
    Except RunErr (Expr × Environment × List String)
  | 0, _, _, _, _, _ => .error .noFuel
  | fuel + 1, condition, body, e, env, fn_bind =>
    if is_truthy e then do
      let (r, env1, out1) ← evaluate fuel body env fn_bind
      let evaluated := match r with | .Expr e' => e' | _ => Expr.Nil
      match evaluated with
      | .Return keyword v => .ok (.Return keyword v, env1, out1)
      | _ => do
        let (c, env2, out2) ← evaluate fuel condition env1 fn_bind
        let e' := match c with | .Expr ce => ce | _ => Expr.Nil
        let (res, env3, out3) ← while_loop fuel condition body e' env2 fn_bind
        .ok (res, env3, out1 ++ runner_interpret evaluated ++ out2 ++ out3)
    else .ok (.Nil, env, [])

/-- The argument loop of the `Expr::Call` arm: arguments are evaluated
left to right; a non-`Expr` result (a native value) is *dropped* by the
source's `if let`. -/
def eval_args : Nat → List Expr → Environment → Option Expr →
    Except RunErr (List Expr × Environment × List String)
  | 0, _, _, _ => .error .noFuel
  | fuel + 1, args, env, fn_bind =>
    match args with
    | [] => .ok ([], env, [])
    | a :: rest => do
      let (r, env1, out1) ← evaluate fuel a env fn_bind
      let (vs, env2, out2) ← eval_args fuel rest env1 fn_bind
      match r with
      | .Expr e => .ok (e :: vs, env2, out1 ++ out2)
      | _ => .ok (vs, env2, out1 ++ out2)

/-- `LoxCallable::call for Expr` (`interpreter.rs`): clone the captured
environment (panic when absent), bind the function's own name, bind the
parameters (the caller checked `arguments.len() == params.len()`, so the
source's indexed loop is a zip), evaluate the body as a block with
`fn_bind` set, and unwrap a surfacing `Return`.  The caller's
environment is not touched and the callee environment is dropped —
mutations made during the call are discarded by the source
(`&mut env_f.clone().unwrap()`). -/
def call_fn : Nat → Expr → List Expr → Except RunErr (Expr × List String)
  | 0, _, _ => .error .noFuel
  | fuel + 1, self, arguments =>
    match self with
    | .Function name params body env_fn =>
      match env_fn with
      | none => .error .crashed        -- `env_fn.as_mut().unwrap()` panics
      | some env_f0 => do
        let env_f1 := env_f0.define name.lexeme (.Expr self)
        let env_f2 := (params.zip arguments).foldl
          (fun acc pa => acc.define pa.1.lexeme (.Expr pa.2)) env_f1
        let expr_block := Expr.Block body
        let (r, _, out) ← evaluate fuel expr_block env_f2 (some expr_block)
        match r with
        | .Expr e =>
          match e with
          | .Return _ v => .ok (v, out)
          | _ => .ok (.Nil, out)
        | _ => .ok (.Nil, out)
    | _ => .ok (.String "<fn Nil>", [])
end

/-- `Interpreter::run` (`interpreter.rs`): predefine the native `clock`
in a fresh global environment, then evaluate the statement list in
order, handing each `Expr` result to `runner::interpret`. -/
def run (fuel : Nat) (statements : List Expr) :
    Except RunErr (Environment × List String) :=
  let env0 : Environment :=
    Environment.define (.mk [] none) "clock" (.Global (.Clock ⟨⟩))
  go fuel statements env0
where
  /-- The statement loop of `Interpreter::run`. -/
  go : Nat → List Expr → Environment → Except RunErr (Environment × List String)
    | _, [], env => .ok (env, [])
    | fuel, s :: rest, env => do
      let (r, env1, out1) ← evaluate fuel s env none
      let printed := match r with | .Expr e => runner_interpret e | _ => []
      let (env2, out2) ← go fuel rest env1
      .ok (env2, out1 ++ printed ++ out2)

/-- Truncation toward zero, the `trunc` underlying Rust's `%` on
`f64` (`a % b` has the sign of `a`). -/
def ratTrunc (q : ℚ) : ℤ :=
  if 0 ≤ q then ⌊q⌋ else -⌊-q⌋

/-- `f64::EPSILON` = 2⁻⁵². -/
def f64Epsilon : ℚ := 1 / 2 ^ 52

/-- `(f % 1.0).abs()` for a number value `f`. -/
def remOneAbs (q : ℚ) : ℚ := |q - (ratTrunc q : ℚ)|

/-- `print_based_on_literal` (`formatters.rs`): the canonical literal
rendering used by the `tokenize`/`parse` subcommands.  For `Number` the
pair carries `(value, fractional-digit count)`; the source reads only
`f.0` (the value) — the count is never consulted. -/
def print_based_on_literal : Lit → String
  | .String s => s
  | .Number f =>
    if remOneAbs f.1 < f64Epsilon then numToString f.1 ++ ".0"
    else numToString f.1
  | .Bool b => toString b
  | .Null => "null"
  | .Nil => "nil"

/-! ### Scanner (`scanner.rs`) -/

/-- `struct Scanner` state plus the `error_code: &mut u8` out-parameter
of `scan_tokens` and the `eprintln!` stream. -/
structure ScanState where
  char_array : List Char
  current : Nat
  line : Nat
  tokens : List Token
  stderr : List String
  error_code : Nat
  deriving DecidableEq, Repr

namespace ScanState

/-- `Scanner::is_end`. -/
def is_end (s : ScanState) : Bool :=
  s.char_array.length ≤ s.current

/-- `Scanner::peek`: `'\0'` at end of input. -/
def peek (s : ScanState) : Char :=
  if s.is_end then '\x00' else s.char_array.getD s.current '\x00'

/-- `self.current += 1`. -/
def advance1 (s : ScanState) : ScanState :=
  { s with current := s.current + 1 }

/-- `self.tokens.push(t)`. -/
def push (s : ScanState) (t : Token) : ScanState :=
  { s with tokens := s.tokens ++ [t] }

/-- `Scanner::match_operator`. -/
def match_operator (s : ScanState) (operator : Char) : Bool × ScanState :=
  if s.is_end || !(s.char_array.getD s.current '\x00' == operator) then (false, s)
  else (true, s.advance1)

end ScanState

/-- `Scanner::is_digit`. -/
def is_digit (c : Char) : Bool :=
  '0' ≤ c && c ≤ '9'

/-- `Scanner::is_alpha`. -/
def is_alpha (c : Char) : Bool :=
  ('a' ≤ c && c ≤ 'z') || ('A' ≤ c && c ≤ 'Z') || c == '_'

/-- `Scanner::is_alpha_numeric`. -/
def is_alpha_numeric (c : Char) : Bool :=
  is_alpha c || is_digit c

/-- `self.char_array[start..stop].iter().collect::<String>()`. -/
def sliceStr (cs : List Char) (start stop : Nat) : String :=
  ((cs.drop start).take (stop - start)).asString

/-- Numeric value of a digit character. -/
def digitVal (c : Char) : ℕ := c.toNat - '0'.toNat

/-- The value of `"digits[.digits]".parse::<f64>()`, exact over `ℚ`
(every such literal is a finite decimal; `f64` rounding is outside the
model and no theorem depends on it). -/
def parseDecimal (cs : List Char) : ℚ :=
  let intPart := cs.takeWhile (fun c => !(c == '.'))
  let fracPart := (cs.dropWhile (fun c => !(c == '.'))).drop 1
  let ip : ℕ := intPart.foldl (fun a c => a * 10 + digitVal c) 0
  let fp : ℕ := fracPart.foldl (fun a c => a * 10 + digitVal c) 0
  (ip : ℚ) + (fp : ℚ) / 10 ^ fracPart.length

/-- `format!("{:.*}", prec, value)` for the nonnegative decimal values
the scanner produces: fixed-point rendering with `prec` fractional
digits (exact here; no theorem depends on rounding ties). -/
def formatFixed (prec : ℕ) (q : ℚ) : String :=
  let n : ℕ := (⌊q * 10 ^ prec + 1 / 2⌋).toNat
  let ip := n / 10 ^ prec
  let fp := n % 10 ^ prec
  if prec = 0 then toString ip
  else
    let s := toString fp
    toString ip ++ "." ++ (⟨List.replicate (prec - s.length) '0'⟩ ++ s)

/-- The `RESERVED_KEYWORDS` table (`interpreter.rs`). -/
def reservedKeyword : String → Option TokenType
  | "and" => some .AND
  | "class" => some .CLASS
  | "else" => some .ELSE
  | "false" => some .FALSE
  | "for" => some .FOR
  | "fun" => some .FUN
  | "if" => some .IF
  | "nil" => some .NIL
  | "or" => some .OR
  | "print" => some .PRINT
  | "return" => some .RETURN
  | "super" => some .SUPER
  | "this" => some .THIS
  | "true" => some .TRUE
  | "var" => some .VAR
  | "while" => some .WHILE
  | _ => none

/-- The line-comment loop of the `'/'` arm. -/
def comment_loop : Nat → ScanState → ScanState
  | 0, s => s
  | fuel + 1, s =>
    if !(s.peek == '\n') && !s.is_end then comment_loop fuel s.advance1 else s

/-- The character loop of `Scanner::string_process` (advances to the
closing quote, counting embedded newlines). -/
def string_scan_loop : Nat → ScanState → ScanState
  | 0, s => s
  | fuel + 1, s =>
    if !(s.peek == '"') && !s.is_end then
      let s1 := if s.peek == '\n' then { s with line := s.line + 1 } else s
      string_scan_loop fuel s1.advance1
    else s

/-- `Scanner::string_process`: `none` models `Err(65)` (the unterminated
string report is an *active* `eprintln!` and lands in `stderr`). -/
def string_process (fuel start : Nat) (s0 : ScanState) :
    Option String × ScanState :=
  let s := string_scan_loop fuel s0
  if s.is_end then
    (none, { s with stderr := s.stderr ++
      ["[line " ++ toString s.line ++ "] Error: Unterminated string."] })
  else
    let s1 := s.advance1
    if s1.current - 2 = start then (some "\"\"", s1)
    else (some (sliceStr s1.char_array start s1.current), s1)

/-- The integer-digit loop of `Scanner::number_process`. -/
def int_digits_loop : Nat → ScanState → ScanState
  | 0, s => s
  | fuel + 1, s =>
    if is_digit s.peek && !s.is_end then int_digits_loop fuel s.advance1 else s

/-- The fractional-digit loop of `Scanner::number_process`, counting
`formatting_size`. -/
def frac_digits_loop : Nat → ScanState × Nat → ScanState × Nat
  | 0, sc => sc
  | fuel + 1, (s, cnt) =>
    if is_digit s.peek && !s.is_end then frac_digits_loop fuel (s.advance1, cnt + 1)
    else (s, cnt)

/-- `Scanner::number_process`: value, fractional-digit count, raw
digit string. -/
def number_process (fuel start : Nat) (s0 : ScanState) :
    (ℚ × ℕ × String) × ScanState :=
  let s1 := int_digits_loop fuel s0
  let (s2, formatting_size) :=
    if s1.peek == '.' then frac_digits_loop fuel (s1.advance1, 0)
    else (s1, 0)
  let raw := (s2.char_array.drop start).take (s2.current - start)
  ((parseDecimal raw, formatting_size, raw.asString), s2)

/-- The identifier loop of `Scanner::identifier`. -/
def ident_loop : Nat → ScanState → ScanState
  | 0, s => s
  | fuel + 1, s =>
    if is_alpha_numeric s.peek then ident_loop fuel s.advance1 else s

/-- `Scanner::identifier`: lexeme plus keyword-or-identifier kind. -/
def identifier (fuel start : Nat) (s0 : ScanState) :
    (String × TokenType) × ScanState :=
  let s := ident_loop fuel s0
  let type_of_token := sliceStr s.char_array start s.current
  match reservedKeyword type_of_token with
  | some k => ((type_of_token, k), s)
  | none => ((type_of_token, .IDENTIFIER), s)

/-- One token's worth of `Token::new` + `push` for the simple arms. -/
def pushSimple (s : ScanState) (tt : TokenType) (lexeme : String) : ScanState :=
  s.push ⟨tt, lexeme, some .Null, s.line⟩

/-- One iteration of the `scan_tokens` while loop (`scanner.rs`,
dispatch on the consumed character), arm for arm in source order. -/
def scan_iter (fuel : Nat) (s0 : ScanState) : ScanState :=
  let c := s0.char_array.getD s0.current '\x00'
  let start := s0.current
  let s := s0.advance1
  if c == '(' then pushSimple s .LEFT_PAREN "("
  else if c == ')' then pushSimple s .RIGHT_PAREN ")"
  else if c == '\x7b' then pushSimple s .LEFT_BRACE "\x7b"
  else if c == '\x7d' then pushSimple s .RIGHT_BRACE "\x7d"
  else if c == ',' then pushSimple s .COMMA ","
  else if c == '.' then pushSimple s .DOT "."
  else if c == '-' then pushSimple s .MINUS "-"
  else if c == '+' then pushSimple s .PLUS "+"
  else if c == ';' then pushSimple s .SEMICOLON ";"
  else if c == '*' then pushSimple s .STAR "*"
  else if c == '!' then
    let (is_bang, s1) := s.match_operator '='
    if is_bang then pushSimple s1 .BANG_EQUAL "!=" else pushSimple s1 .BANG "!"
  else if c == '=' then
    let (is_equal, s1) := s.match_operator '='
    if is_equal then pushSimple s1 .EQUAL_EQUAL "==" else pushSimple s1 .EQUAL "="
  else if c == '<' then
    let (is_less, s1) := s.match_operator '='
    if is_less then pushSimple s1 .LESS_EQUAL "<=" else pushSimple s1 .LESS "<"
  else if c == '>' then
    let (is_greater, s1) := s.match_operator '='
    if is_greater then pushSimple s1 .GREATER_EQUAL ">=" else pushSimple s1 .GREATER ">"
  else if c == '/' then
    let (matched, s1) := s.match_operator '/'
    if matched then comment_loop fuel s1 else pushSimple s1 .SLASH "/"
  else if c == '"' then
    match string_process fuel start s with
    | (some string, s1) =>
      let s2 := { s1 with error_code := 0 }   -- `*error_code = 0;`
      let lit : Lit :=
        if string.length > 1 then
          .String (((string.toList.drop 1).take (string.length - 2)).asString)
        else .String ""
      s2.push ⟨.STRING, string, some lit, s2.line⟩
    | (none, s1) => { s1 with error_code := 65 }
  else if c == ' ' || c == '\x0d' || c == '\t' then s
  else if c == '\n' then { s with line := s.line + 1 }
  else if is_digit c then
    let ((number, fsize, _), s1) := number_process fuel start s
    s1.push ⟨.NUMBER, formatFixed fsize number, some (.Number (number, fsize)), s1.line⟩
  else if is_alpha c then
    let ((lexeme, kind), s1) := identifier fuel start s
    s1.push ⟨kind, lexeme, some .Null, s1.line⟩
  else
    { s with
      stderr := s.stderr ++
        ["[line " ++ toString s.line ++ "] Error: Unexpected character: " ++
          String.singleton c],
      error_code := 65 }

/-- The `scan_tokens` while loop. -/
def scan_loop : Nat → ScanState → ScanState
  | 0, s => s
  | fuel + 1, s =>
    if s.current < s.char_array.length then scan_loop fuel (scan_iter fuel s)
    else s

/-- `Scanner::scan_tokens` on a fresh scanner with `error_code = 0`
(as `Interpreter::tokenize` initialises it); the final EOF token is
appended after the loop.  The fuel `source.length + 1` suffices because
every iteration consumes at least one character. -/
def scan_tokens (source : String) : ScanState :=
  let s0 : ScanState := ⟨source.toList, 0, 1, [], [], 0⟩
  let s1 := scan_loop (source.length + 1) s0
  s1.push ⟨.EOF, "", some .Null, s1.line⟩

/-- The exit code of the `tokenize` subcommand (`Interpreter::tokenize`):
65 exactly when the error flag ends up 65. -/
def tokenize_exit_code (source : String) : Nat :=
  if (scan_tokens source).error_code = 65 then 65 else 0

/-! ### Parser (`parser.rs`) -/

/-- `struct Parser` position state (`tokens`, `current`); the
`statements` accumulator of `parse()` is returned functionally. -/
structure ParserState where
  tokens : List Token
  current : Nat
  deriving DecidableEq, Repr

namespace Parser

/-- `Parser::invalid_error`: the `println!` is commented out, so the
message is dropped and the process exits with 65. -/
def invalid_error {α : Type} (_message : String) : Except RunErr α :=
  .error (.exitc 65 [])

/-- `Parser::peek` (`tokens.get(current).unwrap()`; `crashed` models
the panic on an out-of-range index). -/
def peekT (st : ParserState) : Except RunErr Token :=
  match st.tokens.get? st.current with
  | some t => .ok t
  | none => .error .crashed

/-- `tokens.get(current - 1).unwrap()`, the previous token. -/
def prevT (st : ParserState) : Except RunErr Token :=
  match st.tokens.get? (st.current - 1) with
  | some t => .ok t
  | none => .error .crashed

/-- `Parser::is_end`. -/
def is_end (st : ParserState) : Except RunErr Bool := do
  let t ← peekT st
  .ok (t.token_type == .EOF)

/-- `Parser::check`. -/
def check (st : ParserState) (token_type : TokenType) : Except RunErr Bool := do
  let e ← is_end st
  if e then .ok false
  else do
    let t ← peekT st
    .ok (t.token_type == token_type)

/-- `Parser::advance`. -/
def advance (st : ParserState) : Except RunErr (Token × ParserState) := do
  let e ← is_end st
  let st1 := if e then st else { st with current := st.current + 1 }
  let t ← prevT st1
  .ok (t, st1)

/-- `Parser::match_operators`. -/
def match_operators (st : ParserState) :
    List TokenType → Except RunErr (Bool × ParserState)
  | [] => .ok (false, st)
  | token_type :: rest => do
    let c ← check st token_type
    if c then do
      let (_, st1) ← advance st
      .ok (true, st1)
    else match_operators st rest

/-- `Parser::consume`: advance past the expected token or exit 65. -/
def consume (st : ParserState) (token_type : TokenType) (_message : String) :
    Except RunErr (Token × ParserState) := do
  let c ← check st token_type
  if c then advance st
  else invalid_error ("Expect '" ++ toString (repr token_type) ++ "'.")

/-- The skip loop of `Parser::synchronize`. -/
def sync_loop : Nat → ParserState → Except RunErr ParserState
  | 0, _ => .error .noFuel
  | fuel + 1, st => do
    let e ← is_end st
    if e then .ok st
    else do
      let t ← prevT st
      if t.token_type == .SEMICOLON then .ok st
      else
        match t.token_type with
        | .CLASS | .FUN | .VAR | .FOR | .IF | .WHILE | .PRINT | .RETURN => .ok st
        | _ => do
          let (_, st1) ← advance st
          sync_loop fuel st1

/-- `Parser::synchronize`. -/
def synchronize (fuel : Nat) (st : ParserState) : Except RunErr ParserState := do
  let (_, st1) ← advance st
  sync_loop fuel st1

mutual
/-- `Parser::and` (logical-and level; the `while` is the loop helper). -/
def andE : Nat → ParserState → Except RunErr (Expr × ParserState)
  | 0, _ => .error .noFuel
  | fuel + 1, st => do
    let (expr, st1) ← equality fuel st
    and_loop fuel expr st1

/-- The `while match AND` loop of `Parser::and`; the right operand is
parsed by a recursive `self.and()`. -/
def and_loop : Nat → Expr → ParserState → Except RunErr (Expr × ParserState)
  | 0, _, _ => .error .noFuel
  | fuel + 1, expr, st => do
    let (m, st1) ← match_operators st [.AND]
    if m then do
      let operator ← prevT st1
      let (right, st2) ← andE fuel st1
      and_loop fuel (.Logical expr right operator.token_type) st2
    else .ok (expr, st)

/-- `Parser::or`. -/
def orE : Nat → ParserState → Except RunErr (Expr × ParserState)
  | 0, _ => .error .noFuel
  | fuel + 1, st => do
    let (expr, st1) ← andE fuel st
    or_loop fuel expr st1

/-- The `while match OR` loop of `Parser::or`; the right operand is
parsed by `self.and()`. -/
def or_loop : Nat → Expr → ParserState → Except RunErr (Expr × ParserState)
  | 0, _, _ => .error .noFuel
  | fuel + 1, expr, st => do
    let (m, st1) ← match_operators st [.OR]
    if m then do
      let operator ← prevT st1
      let (right, st2) ← andE fuel st1
      or_loop fuel (.Logical expr right operator.token_type) st2
    else .ok (expr, st)

/-- `Parser::assignment`: right-associative; a non-`Var` target is a
fatal parse error. -/
def assignment : Nat → ParserState → Except RunErr (Expr × ParserState)
  | 0, _ => .error .noFuel
  | fuel + 1, st => do
    let (expr, st1) ← orE fuel st
    let (m, st2) ← match_operators st1 [.EQUAL]
    if m then do
      let (value, st3) ← assignment fuel st2
      match expr with
      | .Var t => .ok (.Assign t.lexeme value, st3)
      | _ => invalid_error "Invalid assignment target"
    else .ok (expr, st2)

/-- `Parser::expression`. -/
def expression : Nat → ParserState → Except RunErr (Expr × ParserState)
  | 0, _ => .error .noFuel
  | fuel + 1, st => assignment fuel st

/-- `Parser::equality`. -/
def equality : Nat → ParserState → Except RunErr (Expr × ParserState)
  | 0, _ => .error .noFuel
  | fuel + 1, st => do
    let (expr, st1) ← comparison fuel st
    equality_loop fuel expr st1

/-- The `!=`/`==` loop of `Parser::equality`. -/
def equality_loop : Nat → Expr → ParserState → Except RunErr (Expr × ParserState)
  | 0, _, _ => .error .noFuel
  | fuel + 1, expr, st => do
    let (m, st1) ← match_operators st [.BANG_EQUAL, .EQUAL_EQUAL]
    if m then do
      let operator ← prevT st1
      let (right, st2) ← comparison fuel st1
      equality_loop fuel (.Binary operator right expr) st2
    else .ok (expr, st)

/-- `Parser::comparison`. -/
def comparison : Nat → ParserState → Except RunErr (Expr × ParserState)
  | 0, _ => .error .noFuel
  | fuel + 1, st => do
    let (expr, st1) ← term fuel st
    comparison_loop fuel expr st1

/-- The `>`/`>=`/`<`/`<=` loop of `Parser::comparison`. -/
def comparison_loop : Nat → Expr → ParserState → Except RunErr (Expr × ParserState)
  | 0, _, _ => .error .noFuel
  | fuel + 1, expr, st => do
    let (m, st1) ← match_operators st [.GREATER, .GREATER_EQUAL, .LESS, .LESS_EQUAL]
    if m then do
      let operator ← prevT st1
      let (right, st2) ← term fuel st1
      comparison_loop fuel (.Binary operator right expr) st2
    else .ok (expr, st)

/-- `Parser::term`. -/
def term : Nat → ParserState → Except RunErr (Expr × ParserState)
  | 0, _ => .error .noFuel
  | fuel + 1, st => do
    let (expr, st1) ← factor fuel st
    term_loop fuel expr st1

/-- The `-`/`+` loop of `Parser::term`. -/
def term_loop : Nat → Expr → ParserState → Except RunErr (Expr × ParserState)
  | 0, _, _ => .error .noFuel
  | fuel + 1, expr, st => do
    let (m, st1) ← match_operators st [.MINUS, .PLUS]
    if m then do
      let operator ← prevT st1
      let (right, st2) ← factor fuel st1
      term_loop fuel (.Binary operator right expr) st2
    else .ok (expr, st)

/-- `Parser::factor`. -/
def factor : Nat → ParserState → Except RunErr (Expr × ParserState)
  | 0, _ => .error .noFuel
  | fuel + 1, st => do
    let (expr, st1) ← unary fuel st
    factor_loop fuel expr st1

/-- The `/`/`*` loop of `Parser::factor`. -/
def factor_loop : Nat → Expr → ParserState → Except RunErr (Expr × ParserState)
  | 0, _, _ => .error .noFuel
  | fuel + 1, expr, st => do
    let (m, st1) ← match_operators st [.SLASH, .STAR]
    if m then do
      let operator ← prevT st1
      let (right, st2) ← unary fuel st1
      factor_loop fuel (.Binary operator right expr) st2
    else .ok (expr, st)

/-- `Parser::unary`. -/
def unary : Nat → ParserState → Except RunErr (Expr × ParserState)
  | 0, _ => .error .noFuel
  | fuel + 1, st => do
    let (m, st1) ← match_operators st [.BANG, .MINUS]
    if m then do
      let operator ← prevT st1
      let (right, st2) ← unary fuel st1
      .ok (.Unary operator right, st2)
    else callE fuel st1

/-- `Parser::call`. -/
def callE : Nat → ParserState → Except RunErr (Expr × ParserState)
  | 0, _ => .error .noFuel
  | fuel + 1, st => do
    let (expr, st1) ← primary fuel st
    call_loop fuel expr st1

/-- The `loop` of `Parser::call`: chained `(...)` applications. -/
def call_loop : Nat → Expr → ParserState → Except RunErr (Expr × ParserState)
  | 0, _, _ => .error .noFuel
  | fuel + 1, expr, st => do
    let (m, st1) ← match_operators st [.LEFT_PAREN]
    if m then do
      let (e2, st2) ← finish_call fuel expr st1
      call_loop fuel e2 st2
    else .ok (expr, st)

/-- `Parser::primary`. -/
def primary : Nat → ParserState → Except RunErr (Expr × ParserState)
  | 0, _ => .error .noFuel
  | fuel + 1, st => do
    let (mf, st1) ← match_operators st [.FALSE]
    if mf then .ok (.Literal (.Bool false), st1)
    else do
      let (mt, st2) ← match_operators st1 [.TRUE]
      if mt then .ok (.Literal (.Bool true), st2)
      else do
        let (mn, st3) ← match_operators st2 [.NIL]
        if mn then .ok (.Literal .Nil, st3)
        else do
          let (ml, st4) ← match_operators st3 [.NUMBER, .STRING]
          if ml then do
            let operator ← prevT st4
            match operator.literal with
            | some l => .ok (.Literal l, st4)
            | none => .error .crashed      -- `.literal.unwrap()`
          else do
            let (mi, st5) ← match_operators st4 [.IDENTIFIER]
            if mi then do
              let t ← prevT st5
              .ok (.Var t, st5)
            else do
              let (mp, st6) ← match_operators st5 [.LEFT_PAREN]
              if mp then do
                let (expr, st7) ← expression fuel st6
                let (_, st8) ← consume st7 .RIGHT_PAREN "Expect ')' after expression."
                .ok (.Grouping [expr], st8)
              else invalid_error "Expect expression."

/-- `Parser::finish_call` (the argument list loop is
`finish_call_args`). -/
def finish_call : Nat → Expr → ParserState → Except RunErr (Expr × ParserState)
  | 0, _, _ => .error .noFuel
  | fuel + 1, expr, st => do
    let c ← check st .RIGHT_PAREN
    let (arguments, st1) ←
      if c then pure (([] : List Expr), st)
      else do
        let (a0, st') ← expression fuel st
        finish_call_args fuel [a0] st'
    let (paren, st2) ← consume st1 .RIGHT_PAREN "Expect ')' after arguments."
    .ok (.Call expr paren arguments, st2)

/-- The `while match COMMA` loop of `Parser::finish_call`, including
the 255-argument bound. -/
def finish_call_args : Nat → List Expr → ParserState →
    Except RunErr (List Expr × ParserState)
  | 0, _, _ => .error .noFuel
  | fuel + 1, arguments, st => do
    let (m, st1) ← match_operators st [.COMMA]
    if m then
      if arguments.length ≥ 255 then
        invalid_error "Can't have more than 255 arguments."
      else do
        let (a, st2) ← expression fuel st1
        finish_call_args fuel (arguments ++ [a]) st2
    else .ok (arguments, st)

/-- `Parser::declaration`. -/
def declaration : Nat → ParserState → Except RunErr (Expr × ParserState)
  | 0, _ => .error .noFuel
  | fuel + 1, st => do
    let (mfun, st1) ← match_operators st [.FUN]
    if mfun then function fuel "function" st1
    else do
      let (mvar, st2) ← match_operators st1 [.VAR]
      if mvar then do
        let (o, st3) ← var_declaration fuel st2
        match o with
        | some expr => .ok (expr, st3)
        | none => do
          let st4 ← synchronize fuel st3
          .ok (.Nil, st4)
      else statement fuel st2

/-- `Parser::function`. -/
def function : Nat → String → ParserState → Except RunErr (Expr × ParserState)
  | 0, _, _ => .error .noFuel
  | fuel + 1, kind, st => do
    let (name, st1) ← consume st .IDENTIFIER ("Expect " ++ kind ++ " name.")
    let (_, st2) ← consume st1 .LEFT_PAREN ("Expect '(' after " ++ kind ++ " name.")
    let c ← check st2 .RIGHT_PAREN
    let (parameters, st3) ←
      if c then pure (([] : List Token), st2)
      else do
        let (p0, st') ← consume st2 .IDENTIFIER "Expect parameter name."
        function_params fuel [p0] st'
    let (_, st4) ← consume st3 .RIGHT_PAREN "Expect ')' after parameters."
    let (_, st5) ← consume st4 .LEFT_BRACE ("Expect '\x7b' before " ++ kind ++ " body.")
    let (body, st6) ← block fuel st5
    .ok (.Function name parameters body none, st6)

/-- The `while match COMMA` parameter loop of `Parser::function`,
including the 250-parameter bound. -/
def function_params : Nat → List Token → ParserState →
    Except RunErr (List Token × ParserState)
  | 0, _, _ => .error .noFuel
  | fuel + 1, parameters, st => do
    let (m, st1) ← match_operators st [.COMMA]
    if m then
      if parameters.length ≥ 250 then
        invalid_error "Cannot have more than 250 parameters."
      else do
        let (p, st2) ← consume st1 .IDENTIFIER "Expect parameter name."
        function_params fuel (parameters ++ [p]) st2
    else .ok (parameters, st)

/-- `Parser::var_declaration`. -/
def var_declaration : Nat → ParserState →
    Except RunErr (Option Expr × ParserState)
  | 0, _ => .error .noFuel
  | fuel + 1, st => do
    let (variableTok, st1) ← consume st .IDENTIFIER "Expect variable name."
    let (m, st2) ← match_operators st1 [.EQUAL]
    let (initializer, st3) ←
      if m then expression fuel st2
      else pure (Expr.Nil, st2)
    let (_, st4) ← consume st3 .SEMICOLON "Expect ';' after variable declaration."
    .ok (some (.Variable variableTok.lexeme initializer), st4)

/-- `Parser::statement`. -/
def statement : Nat → ParserState → Except RunErr (Expr × ParserState)
  | 0, _ => .error .noFuel
  | fuel + 1, st => do
    let (mfor, st1) ← match_operators st [.FOR]
    if mfor then for_statement fuel st1
    else do
      let (mif, st2) ← match_operators st1 [.IF]
      if mif then if_statement fuel st2
      else do
        let (mprint, st3) ← match_operators st2 [.PRINT]
        if mprint then do
          let (v, st') ← print_statement fuel st3
          .ok (.Print v, st')
        else do
          let (mret, st4) ← match_operators st3 [.RETURN]
          if mret then return_statement fuel st4
          else do
            let (mwhile, st5) ← match_operators st4 [.WHILE]
            if mwhile then while_statement fuel st5
            else do
              let (mbrace, st6) ← match_operators st5 [.LEFT_BRACE]
              if mbrace then do
                let (stmts, st') ← block fuel st6
                .ok (.Block stmts, st')
              else expression_statement fuel st6

/-- `Parser::while_statement`. -/
def while_statement : Nat → ParserState → Except RunErr (Expr × ParserState)
  | 0, _ => .error .noFuel
  | fuel + 1, st => do
    let (_, st1) ← consume st .LEFT_PAREN "Expect '(' after 'if'."
    let (condition, st2) ← expression fuel st1
    let (_, st3) ← consume st2 .RIGHT_PAREN "Expect ')' after 'if'."
    let (body, st4) ← statement fuel st3
    .ok (.While condition body, st4)

/-- The initializer clause of `Parser::for_statement` (source lines
438–444, factored out): `None` for a bare `;`, a `var` declaration, or
an expression statement. -/
def for_initializer : Nat → ParserState →
    Except RunErr (Option Expr × ParserState)
  | 0, _ => .error .noFuel
  | fuel + 1, st => do
    let (msemi, sa) ← match_operators st [.SEMICOLON]
    if msemi then .ok (none, sa)
    else do
      let (mvar, sb) ← match_operators sa [.VAR]
      if mvar then var_declaration fuel sb
      else do
        let (e, sc) ← expression_statement fuel sb
        .ok (some e, sc)

/-- The condition clause of `Parser::for_statement` (source lines
446–450, factored out): present unless the next token is `;`. -/
def for_condition : Nat → ParserState →
    Except RunErr (Option Expr × ParserState)
  | 0, _ => .error .noFuel
  | fuel + 1, st => do
    let c ← check st .SEMICOLON
    if !c then do
      let (e, s') ← expression fuel st
      .ok (some e, s')
    else .ok (none, st)

/-- The increment clause of `Parser::for_statement` (source lines
454–458, factored out): present unless the next token is `)`. -/
def for_increment : Nat → ParserState →
    Except RunErr (Option Expr × ParserState)
  | 0, _ => .error .noFuel
  | fuel + 1, st => do
    let c ← check st .RIGHT_PAREN
    if !c then do
      let (e, s') ← expression fuel st
      .ok (some e, s')
    else .ok (none, st)

/-- `Parser::for_statement`: parse the three clauses and the body,
then desugar exactly as the source does (increment appended as an
`Increment` node, missing condition replaced by the literal `true`,
initializer prepended in an outer block). -/
def for_statement : Nat → ParserState → Except RunErr (Expr × ParserState)
  | 0, _ => .error .noFuel
  | fuel + 1, st => do
    let (_, st1) ← consume st .LEFT_PAREN "Expect '(' after 'for'."
    let (initializer, st2) ← for_initializer fuel st1
    let (condition, st3) ← for_condition fuel st2
    let (_, st4) ← consume st3 .SEMICOLON "Expect ';' after loop condition."
    let (increment, st5) ← for_increment fuel st4
    let (_, st6) ← consume st5 .RIGHT_PAREN "Expect ')' after the clauses."
    let (body0, st7) ← statement fuel st6
    let body1 :=
      match increment with
      | some inc => Expr.Block [body0, .Increment inc]
      | none => body0
    let condition1 :=
      match condition with
      | some c => c
      | none => Expr.Literal (.Bool true)
    let body2 := Expr.While condition1 body1
    let body3 :=
      match initializer with
      | some i => Expr.Block [i, body2]
      | none => body2
    .ok (body3, st7)

/-- `Parser::if_statement`. -/
def if_statement : Nat → ParserState → Except RunErr (Expr × ParserState)
  | 0, _ => .error .noFuel
  | fuel + 1, st => do
    let (_, st1) ← consume st .LEFT_PAREN "Expect '(' after 'if'."
    let (condition, st2) ← expression fuel st1
    let (_, st3) ← consume st2 .RIGHT_PAREN "Expect ')' after 'if'."
    let (then_branch, st4) ← statement fuel st3
    let (melse, st5) ← match_operators st4 [.ELSE]
    if melse then do
      let (else_branch, st6) ← statement fuel st5
      .ok (.If condition then_branch (some else_branch), st6)
    else .ok (.If condition then_branch none, st5)

/-- `Parser::block` (statement list between braces). -/
def block : Nat → ParserState → Except RunErr (List Expr × ParserState)
  | 0, _ => .error .noFuel
  | fuel + 1, st => do
    let c ← check st .RIGHT_BRACE
    let e ← is_end st
    if !c && !e then do
      let (d, st1) ← declaration fuel st
      let (rest, st2) ← block fuel st1
      .ok (d :: rest, st2)
    else do
      let (_, st1) ← consume st .RIGHT_BRACE "Expect '\x7d' after block."
      .ok ([], st1)

/-- `Parser::print_statement`. -/
def print_statement : Nat → ParserState → Except RunErr (Expr × ParserState)
  | 0, _ => .error .noFuel
  | fuel + 1, st => do
    let (value, st1) ← expression fuel st
    let (_, st2) ← consume st1 .SEMICOLON "Expect ';' after value."
    .ok (value, st2)

/-- `Parser::expression_statement`. -/
def expression_statement : Nat → ParserState → Except RunErr (Expr × ParserState)
  | 0, _ => .error .noFuel
  | fuel + 1, st => do
    let (expr, st1) ← expression fuel st
    let (_, st2) ← consume st1 .SEMICOLON "Expect ';' after expression."
    .ok (expr, st2)

/-- `Parser::return_statement`. -/
def return_statement : Nat → ParserState → Except RunErr (Expr × ParserState)
  | 0, _ => .error .noFuel
  | fuel + 1, st => do
    let keyword ← prevT st
    let c ← check st .SEMICOLON
    let (value, st1) ←
      if !c then expression fuel st
      else pure (Expr.Nil, st)
    let (_, st2) ← consume st1 .SEMICOLON "Expect ';' after return value."
    .ok (.Return keyword value, st2)
end

/-- The `while !is_end` loop of `Parser::parse`. -/
def parse_loop : Nat → ParserState → Except RunErr (List Expr × ParserState)
  | 0, _ => .error .noFuel
  | fuel + 1, st => do
    let e ← is_end st
    if e then .ok ([], st)
    else do
      let (d, st1) ← declaration fuel st
      let (rest, st2) ← parse_loop fuel st1
      .ok (d :: rest, st2)

/-- `Parser::parse`: the statement list for the `run` subcommand. -/
def parse (fuel : Nat) (tokens : List Token) :
    Except RunErr (List Expr × ParserState) :=
  parse_loop fuel ⟨tokens, 0⟩

end Parser

/-- The desugared `for` shape stated by the specification: a block
containing the initializer (when present) followed by a while loop
whose condition is the given condition (or the literal `true` when
absent) and whose body is the original body with the increment appended
as a trailing node.  Written from the spec's words, to be compared with
`Parser.for_statement`. -/
def forDesugarSpec (initializer condition increment : Option Expr)
    (body : Expr) : Expr :=
  let loopBody :=
    match increment with
    | some inc => Expr.Block [body, .Increment inc]
    | none => body
  let w := Expr.While (condition.getD (.Literal (.Bool true))) loopBody
  match initializer with
  | some i => Expr.Block [i, w]
  | none => w

/-! ### The `Float` mirror of the division arm (`evaluator.rs`) -/

/-- Value shapes for the `Float`-typed mirror of the `SLASH` case. -/
inductive FValue where
  | Number (n : Float)
  | Bool (b : Bool)
  | Nil
  | String (s : String)

/-- The `TokenType::SLASH` case of the `Expr::Binary` arm
(`evaluator.rs`), with the `f64` payloads kept as `Float`: two numbers
divide unconditionally (no zero-divisor test), anything else is
`invalid_error` (exit 70). -/
def evalSlashFloat (left right : FValue) : Except RunErr FValue :=
  match left, right with
  | .Number n1, .Number n2 => .ok (.Number (n1 / n2))
  | _, _ => invalid_error "Binary slash error"

/-! ### Concrete tokens and programs used by the claims -/

/-- An identifier token `a`. -/
def aTok : Token := ⟨.IDENTIFIER, "a", some .Null, 1⟩

/-- An identifier token `f`. -/
def fTok : Token := ⟨.IDENTIFIER, "f", some .Null, 2⟩

/-- A closing-parenthesis token. -/
def rpTok : Token := ⟨.RIGHT_PAREN, ")", some .Null, 1⟩

/-- A `!` token. -/
def bangTok : Token := ⟨.BANG, "!", some .Null, 1⟩

/-- A `/` token. -/
def slashTok : Token := ⟨.SLASH, "/", some .Null, 1⟩

/-- The program `var a = 1; fun f() { print a; } a = 2; f();` as the
parser produces it. -/
def progClosure : List Expr :=
  [ .Variable "a" (.Literal (.Number (1, 0))),
    .Function fTok [] [.Print (.Var aTok)] none,
    .Assign "a" (.Literal (.Number (2, 0))),
    .Call (.Var fTok) rpTok [] ]

/-- The program `var a = true; print a or "x";` as the parser produces
it. -/
def progOrVar : List Expr :=
  [ .Variable "a" (.Literal (.Bool true)),
    .Print (.Logical (.Var aTok) (.Literal (.String "x")) .OR) ]

/-- The closure-counter scenario of the specification:
`fun make() { var i = 0; fun inc() { i = i + 1; return i; } return inc; }
var c = make(); print c(); print c(); print c();`. -/
def progCounterSrc : String :=
  "fun make() \x7b var i = 0; fun inc() \x7b i = i + 1; return i; \x7d " ++
  "return inc; \x7d var c = make(); print c(); print c(); print c();"

/-- Scan, parse and run a source text (the `run` subcommand pipeline
on a non-empty file), returning the stdout lines. -/
def runPipeline (src : String) : Except RunErr (List String) := do
  let toks := (scan_tokens src).tokens
  let (stmts, _) ← Parser.parse 1000 toks
  let (_, out) ← run 1000 stmts
  .ok out

/-! ### Environment lemmas -/

theorem mapContains_cons (p : String × EnvironmentValue)
    (m : List (String × EnvironmentValue)) (n : String) :
    mapContains (p :: m) n = (p.1 == n || mapContains m n) := by
  simp [mapContains]

theorem mapGet_eq_none_of_not_contains
    (m : List (String × EnvironmentValue)) (n : String)
    (h : mapContains m n = false) : mapGet m n = none := by
  have hfind : m.find? (fun p => p.1 == n) = none := by
    rw [List.find?_eq_none]
    intro p hp
    have h' := (List.any_eq_false).mp h p hp
    simpa using h'
  simp [mapGet, hfind]

theorem mapGet_insert_self (m : List (String × EnvironmentValue))
    (n : String) (v : EnvironmentValue) :
    mapGet ((n, v) :: m) n = some v := by
  simp [mapGet, List.find?]

theorem mapContains_mapRemove (m : List (String × EnvironmentValue))
    (k x : String) :
    mapContains (mapRemove m k) x = (mapContains m x && !(x == k)) := by
  induction m with
  | nil => simp [mapRemove, mapContains]
  | cons p rest ih =>
    have ih' : mapContains (List.filter (fun p => !(p.1 == k)) rest) x =
        (mapContains rest x && !(x == k)) := by
      simpa [mapRemove] using ih
    by_cases hk : p.1 = k
    · have hbk : (p.1 == k) = true := beq_iff_eq.mpr hk
      by_cases hx : p.1 = x
      · have hxk : (x == k) = true := beq_iff_eq.mpr (hx ▸ hk)
        have hbx : (p.1 == x) = true := beq_iff_eq.mpr hx
        simp [mapRemove, List.filter_cons, hbk, mapContains_cons, hbx,
          ih', hxk]
      · have hbx : (p.1 == x) = false := beq_eq_false_iff_ne.mpr hx
        simp [mapRemove, List.filter_cons, hbk, mapContains_cons, hbx, ih']
    · have hbk : (p.1 == k) = false := beq_eq_false_iff_ne.mpr hk
      by_cases hx : p.1 = x
      · have hbx : (p.1 == x) = true := beq_iff_eq.mpr hx
        have hxk : (x == k) = false := by
          rw [beq_eq_false_iff_ne]
          intro hcon
          exact hk (hx.symm ▸ hcon)
        simp [mapRemove, List.filter_cons, hbk, mapContains_cons, hbx, hxk]
      · have hbx : (p.1 == x) = false := beq_eq_false_iff_ne.mpr hx
        simp [mapRemove, List.filter_cons, hbk, mapContains_cons, hbx, ih']

/-- `assign` on a chain that defines `name` succeeds, the assigned value
is what `get` then returns (the two walk the chain identically), and the
set of defined names at every level is unchanged. -/
theorem assign_spec : ∀ (env : Environment) (n : String) (v : EnvironmentValue),
    env.definedAnywhere n = true →
    ∃ env', env.assign n v = .ok env' ∧
      (∀ line, env'.get n line = .ok v) ∧
      (∀ x, env'.definedAnywhere x = env.definedAnywhere x)
  | .mk m none, n, v, h => by
    have hc : mapContains m n = true := by
      simpa [Environment.definedAnywhere] using h
    refine ⟨.mk ((n, v) :: mapRemove m n) none, ?_, ?_, ?_⟩
    · simp [Environment.assign, hc]
    · intro line
      simp [Environment.get, mapGet_insert_self]
    · intro x
      simp only [Environment.definedAnywhere, mapContains_cons,
        mapContains_mapRemove]
      by_cases hx : n = x
      · subst hx
        simp [hc]
      · rw [show (n == x) = false from beq_eq_false_iff_ne.mpr hx,
          show (x == n) = false from
            beq_eq_false_iff_ne.mpr (fun hh => hx hh.symm)]
        simp
  | .mk m (some e), n, v, h => by
    by_cases hc : mapContains m n
    · refine ⟨.mk ((n, v) :: mapRemove m n) (some e), ?_, ?_, ?_⟩
      · simp [Environment.assign, hc]
      · intro line
        simp [Environment.get, mapGet_insert_self]
      · intro x
        simp only [Environment.definedAnywhere, mapContains_cons,
          mapContains_mapRemove]
        by_cases hx : n = x
        · subst hx
          simp [hc]
        · rw [show (n == x) = false from beq_eq_false_iff_ne.mpr hx,
            show (x == n) = false from
              beq_eq_false_iff_ne.mpr (fun hh => hx hh.symm)]
          simp
    · have hc' : mapContains m n = false := by simpa using hc
      have he : e.definedAnywhere n = true := by
        have h0 := h
        simp only [Environment.definedAnywhere, hc', Bool.false_or] at h0
        exact h0
      obtain ⟨e', h1, h2, h3⟩ := assign_spec e n v he
      refine ⟨.mk m (some e'), ?_, ?_, ?_⟩
      · simp only [Environment.assign, hc', Bool.false_eq_true, if_false, h1]
        rfl
      · intro line
        simp [Environment.get, mapGet_eq_none_of_not_contains m n hc', h2 line]
      · intro x
        simp [Environment.definedAnywhere, h3 x]

/-- `get` on a chain that defines `name` nowhere: the formatted
diagnostic is dropped by `environment_error` and the process exits 70
having emitted nothing. -/
theorem get_not_defined : ∀ (env : Environment) (n : String) (line : Nat),
    env.definedAnywhere n = false →
    env.get n line = .error (.exitc 70 [])
  | .mk m none, n, line, h => by
    have hc : mapContains m n = false := by
      simpa [Environment.definedAnywhere] using h
    simp [Environment.get, mapGet_eq_none_of_not_contains m n hc,
      Environment.environmentError]
  | .mk m (some e), n, line, h => by
    have hc : mapContains m n = false := by
      have h0 := h
      simp only [Environment.definedAnywhere, Bool.or_eq_false_iff] at h0
      exact h0.1
    have he : e.definedAnywhere n = false := by
      have h0 := h
      simp only [Environment.definedAnywhere, Bool.or_eq_false_iff] at h0
      exact h0.2
    simp [Environment.get, mapGet_eq_none_of_not_contains m n hc,
      get_not_defined e n line he]

/-- Splitting an `Except` bind that produced a success. -/
theorem exceptBind_ok {ε α β : Type} {x : Except ε α} {f : α → Except ε β}
    {y : β} (h : (x >>= f) = .ok y) : ∃ a, x = .ok a ∧ f a = .ok y := by
  cases x with
  | ok a => exact ⟨a, rfl, h⟩
  | error e => exact Except.noConfusion h

/-- The token stream following the `for` keyword of
`for (var i = 1; 2; 3) print 4;` — initializer, condition and increment
all present. -/
def forClauseToks : List Token :=
  [ ⟨.LEFT_PAREN, "(", some .Null, 1⟩, ⟨.VAR, "var", some .Null, 1⟩,
    ⟨.IDENTIFIER, "i", some .Null, 1⟩, ⟨.EQUAL, "=", some .Null, 1⟩,
    ⟨.NUMBER, "1", some (.Number (1, 0)), 1⟩, ⟨.SEMICOLON, ";", some .Null, 1⟩,
    ⟨.NUMBER, "2", some (.Number (2, 0)), 1⟩, ⟨.SEMICOLON, ";", some .Null, 1⟩,
    ⟨.NUMBER, "3", some (.Number (3, 0)), 1⟩, ⟨.RIGHT_PAREN, ")", some .Null, 1⟩,
    ⟨.PRINT, "print", some .Null, 1⟩, ⟨.NUMBER, "4", some (.Number (4, 0)), 1⟩,
    ⟨.SEMICOLON, ";", some .Null, 1⟩, ⟨.EOF, "", some .Null, 1⟩ ]

/-! ### Claim theorems -/

/-- C1: the claim says a function declared in scope S observes the
values S's variables hold at call time.  The code refutes it: running
`var a = 1; fun f() { print a; } a = 2; f();` prints `1` — the value
`a` held when `f` was declared — because the `Expr::Function` arm
stores a *clone* of the environment in the closure and the later
assignment mutates only the original.  The claim requires `2`. -/
theorem c1_closure_sees_declaration_time_value :
    (run 30 progClosure).map Prod.snd = .ok ["1"] ∧ ["1"] ≠ ["2"] :=
  ⟨rfl, by decide⟩

/-- C2: a `var` introduced inside a block does not become defined in the
enclosing environment after the block exits (the set of defined names at
every level is unchanged), while an assignment inside the block to a
name `n` defined only outside updates the outer binding observably:
running `{ var m = w; n = v; }` succeeds, and afterwards `n` reads back
as `v`. -/
theorem c2_block_scoping (E : Environment) (n m : String) (v w : ℚ)
    (hmn : m ≠ n) (hdef : E.definedAnywhere n = true) :
    ∃ E', evaluate 10 (.Block [.Variable m (.Literal (.Number (w, 0))),
        .Assign n (.Literal (.Number (v, 0)))]) E none
      = .ok (.Expr .Nil, E', []) ∧
      (∀ line, E'.get n line = .ok (.Expr (.Number v))) ∧
      (∀ x, E'.definedAnywhere x = E.definedAnywhere x) := by
  obtain ⟨E', h1, h2, h3⟩ := assign_spec E n (.Expr (.Number v)) hdef
  have hmb : (m == n) = false := beq_eq_false_iff_ne.mpr hmn
  refine ⟨E', ?_, h2, h3⟩
  simp [evaluate, expr_match, block_loop, Environment.define,
    Environment.assign, mapContains, Environment.enclosing, runner_interpret,
    hmb, h1, Except.bind, bind]

/-- C2 witness: the block `{ var m = 5; n = 7; }` evaluated in the
global environment `{n ↦ 1}` yields `{n ↦ 7}`, with `m` undefined
afterwards. -/
theorem c2_block_scoping_witness :
    evaluate 10 (.Block [.Variable "m" (.Literal (.Number (5, 0))),
        .Assign "n" (.Literal (.Number (7, 0)))])
      (.mk [("n", .Expr (.Number 1))] none) none
      = .ok (.Expr .Nil, .mk [("n", .Expr (.Number 7))] none, []) ∧
    Environment.get (.mk [("n", .Expr (.Number 7))] none) "n" 3
      = .ok (.Expr (.Number 7)) ∧
    (Environment.mk [("n", .Expr (.Number 7))] none).definedAnywhere "m"
      = (Environment.mk [("n", .Expr (.Number 1))] none).definedAnywhere "m" := by
  obtain ⟨E', h1, h2, h3⟩ :=
    c2_block_scoping (.mk [("n", .Expr (.Number 1))] none) "n" "m" 7 5
      (by decide) rfl
  have hE : (Except.ok (EvaluatorReturn.Expr Expr.Nil, E', ([] : List String))
      : Except RunErr (EvaluatorReturn × Environment × List String))
      = .ok (.Expr .Nil, .mk [("n", .Expr (.Number 7))] none, []) :=
    h1.symm.trans rfl
  simp only [Except.ok.injEq, Prod.mk.injEq] at hE
  obtain ⟨-, hE', -⟩ := hE
  exact ⟨hE' ▸ h1, hE' ▸ h2 3, hE' ▸ h3 "m"⟩

/-- C3: the claim says `!v` is always a boolean — `false` for every
truthy `v`, including the number 0 and the empty string.  The code
refutes it: the `BANG` arm never consults `is_truthy`; its catch-all
maps a `Number` or `String` operand to `Nil`, so `!0` and `!""`
evaluate to `nil`, not `false`. -/
theorem c3_bang_on_number_and_string_yields_nil :
    (evaluate 4 (.Unary bangTok (.Literal (.Number (0, 0)))) (.mk [] none) none
      = .ok (.Expr .Nil, .mk [] none, [])) ∧
    (evaluate 4 (.Unary bangTok (.Literal (.String ""))) (.mk [] none) none
      = .ok (.Expr .Nil, .mk [] none, [])) ∧
    Expr.Nil ≠ Expr.Bool false :=
  ⟨rfl, rfl, fun h => Expr.noConfusion h⟩

/-- C4 counterexample: looking up the undefined name `x` exits with
code 70, but the process emits nothing — in particular not the
diagnostic `[line 1] Undefined variable 'x'.` the claim requires
(`environment_error` discards its message; the `println!` is commented
out in the source). -/
theorem c4_counterexample :
    Environment.get (.mk [] none) "x" 1 = .error (.exitc 70 []) ∧
    ([] : List String) ≠ ["[line 1] Undefined variable 'x'."] :=
  ⟨rfl, by decide⟩

/-- C4 (amended): a lookup of a name defined in no scope of the chain
terminates with exit code 70 and emits no diagnostic: the message
`[line L] Undefined variable 'name'` (without the claim's trailing
period) is formatted at the call site and then dropped by
`environment_error`. -/
theorem c4_undefined_variable_exits_70_silently
    (env : Environment) (name : String) (line : Nat)
    (h : env.definedAnywhere name = false) :
    env.get name line = .error (.exitc 70 []) :=
  get_not_defined env name line h

/-- C4 witness: looking up `x` in a one-entry global scope holding only
`y`. -/
theorem c4_undefined_variable_exits_70_silently_witness :
    Environment.get (.mk [("y", .Expr .Nil)] none) "x" 7
      = .error (.exitc 70 []) :=
  c4_undefined_variable_exits_70_silently (.mk [("y", .Expr .Nil)] none)
    "x" 7 rfl

/-- C5: the claim says that in `A or B` a truthy `A` is returned without
evaluating `B`.  The code refutes it when `A` is a variable: the
`Logical` arm feeds its operands to `expr_match`, whose catch-all maps a
`Var` node to `Nil` instead of reading the environment, so
`var a = true; print a or "x";` treats `a` as falsey, evaluates `B`, and
prints `x`.  The claim requires `true` with `B` unevaluated. -/
theorem c5_or_with_variable_operand_evaluates_right :
    (run 30 progOrVar).map Prod.snd = .ok ["x"] ∧ ["x"] ≠ ["true"] :=
  ⟨rfl, by decide⟩

/-- C6: every AST produced by a successful run of
`Parser::for_statement` is the desugaring of *its own* parsed clauses:
the `(`-consume, the initializer clause, the condition clause, the `;`-
and `)`-consumes, the increment clause and the body statement parse in
sequence from the input state, and the result is exactly
`forDesugarSpec` — the spec-side desugared form (initializer block when
present, `while` with condition defaulting to the literal `true`, and
the increment appended as a trailing `Increment` node) — applied to
those parsed components, ending in the body parser's final state.
(`for_statement 0` only signals fuel exhaustion, so the `fuel + 1` form
covers every successful parse.) -/
theorem c6_for_statement_desugars :
    ∀ (fuel : Nat) (st : ParserState) (e : Expr) (st' : ParserState),
      Parser.for_statement (fuel + 1) st = .ok (e, st') →
      ∃ (t1 : Token) (st1 : ParserState) (initializer : Option Expr)
        (st2 : ParserState) (condition : Option Expr) (st3 : ParserState)
        (t4 : Token) (st4 : ParserState) (increment : Option Expr)
        (st5 : ParserState) (t6 : Token) (st6 : ParserState) (body : Expr),
        Parser.consume st .LEFT_PAREN "Expect '(' after 'for'."
          = .ok (t1, st1) ∧
        Parser.for_initializer fuel st1 = .ok (initializer, st2) ∧
        Parser.for_condition fuel st2 = .ok (condition, st3) ∧
        Parser.consume st3 .SEMICOLON "Expect ';' after loop condition."
          = .ok (t4, st4) ∧
        Parser.for_increment fuel st4 = .ok (increment, st5) ∧
        Parser.consume st5 .RIGHT_PAREN "Expect ')' after the clauses."
          = .ok (t6, st6) ∧
        Parser.statement fuel st6 = .ok (body, st') ∧
        e = forDesugarSpec initializer condition increment body := by
  intro fuel st e st' h
  rw [Parser.for_statement] at h
  obtain ⟨⟨t1, st1⟩, h1, h⟩ := exceptBind_ok h
  obtain ⟨⟨initializer, st2⟩, h2, h⟩ := exceptBind_ok h
  obtain ⟨⟨condition, st3⟩, h3, h⟩ := exceptBind_ok h
  obtain ⟨⟨t4, st4⟩, h4, h⟩ := exceptBind_ok h
  obtain ⟨⟨increment, st5⟩, h5, h⟩ := exceptBind_ok h
  obtain ⟨⟨t6, st6⟩, h6, h⟩ := exceptBind_ok h
  obtain ⟨⟨body0, st7⟩, h7, h⟩ := exceptBind_ok h
  simp only [Except.ok.injEq, Prod.mk.injEq] at h
  refine ⟨t1, st1, initializer, st2, condition, st3, t4, st4, increment, st5,
    t6, st6, body0, h1, h2, h3, h4, h5, h6, h.2 ▸ h7, ?_⟩
  rw [← h.1]
  cases initializer <;> cases condition <;> cases increment <;> rfl

set_option maxRecDepth 4096 in
set_option maxHeartbeats 2000000 in
/-- C6 witness: parsing `for (var i = 1; 2; 3) print 4;` (tokens after
`for`, all three clauses present) parses `var i = 1;` as the
initializer, `2` as the condition, `3` as the increment and `print 4;`
as the body, and produces exactly their desugared form
`{ var i = 1; while (2) { print 4; <increment 3>; } }`. -/
theorem c6_for_statement_desugars_witness :
    ∃ (t1 : Token) (st1 : ParserState) (initializer : Option Expr)
      (st2 : ParserState) (condition : Option Expr) (st3 : ParserState)
      (t4 : Token) (st4 : ParserState) (increment : Option Expr)
      (st5 : ParserState) (t6 : Token) (st6 : ParserState) (body : Expr),
      Parser.consume ⟨forClauseToks, 0⟩ .LEFT_PAREN "Expect '(' after 'for'."
        = .ok (t1, st1) ∧
      Parser.for_initializer 39 st1 = .ok (initializer, st2) ∧
      Parser.for_condition 39 st2 = .ok (condition, st3) ∧
      Parser.consume st3 .SEMICOLON "Expect ';' after loop condition."
        = .ok (t4, st4) ∧
      Parser.for_increment 39 st4 = .ok (increment, st5) ∧
      Parser.consume st5 .RIGHT_PAREN "Expect ')' after the clauses."
        = .ok (t6, st6) ∧
      Parser.statement 39 st6 = .ok (body, ⟨forClauseToks, 13⟩) ∧
      Expr.Block [.Variable "i" (.Literal (.Number (1, 0))),
        .While (.Literal (.Number (2, 0)))
          (.Block [.Print (.Literal (.Number (4, 0))),
                   .Increment (.Literal (.Number (3, 0)))])]
        = forDesugarSpec initializer condition increment body :=
  c6_for_statement_desugars 39 ⟨forClauseToks, 0⟩ _ ⟨forClauseToks, 13⟩ rfl

/-- C7 counterexample: calling the number literal `5` exits with code
70, but nothing is emitted — in particular not the message
`Can only call functions and classes.` the claim says is raised (the
non-callable case is a bare `exit(70)`). -/
theorem c7_counterexample :
    evaluate 4 (.Call (.Literal (.Number (5, 0))) rpTok []) (.mk [] none) none
      = .error (.exitc 70 []) ∧
    ([] : List String) ≠ ["Can only call functions and classes."] :=
  ⟨rfl, by decide⟩

/-- C7 (amended): a call whose callee evaluates to a non-callable value
exits with code 70, and a call to a user function with the wrong
argument count exits with code 70; in neither case is a message
observable — the non-callable case exits directly and `invalid_error`
discards the formatted arity message (its `println!` is commented
out). -/
theorem c7_call_errors_exit_70_silently :
    (∀ (env : Environment) (q : ℚ) (t : Token),
      evaluate 4 (.Call (.Literal (.Number (q, 0))) t []) env none
        = .error (.exitc 70 [])) ∧
    (∀ (env : Environment) (t ct nm p : Token) (bd : List Expr)
        (ec : Environment),
      env.get t.lexeme t.line = .ok (.Expr (.Function nm [p] bd (some ec))) →
      evaluate 4 (.Call (.Var t) ct []) env none
        = .error (.exitc 70 [])) := by
  constructor
  · intro env q t
    rfl
  · intro env t ct nm p bd ec h
    simp only [evaluate, expr_match, eval_args, h]
    rfl

/-- C7 witness: `6()` in an empty environment, and `f()` where `f` is a
one-parameter function. -/
theorem c7_call_errors_exit_70_silently_witness :
    evaluate 4 (.Call (.Literal (.Number (6, 0))) rpTok []) (.mk [] none) none
      = .error (.exitc 70 []) ∧
    evaluate 4 (.Call (.Var fTok) rpTok [])
      (.mk [("f", .Expr (.Function fTok [aTok] [] (some (.mk [] none))))] none)
      none = .error (.exitc 70 []) :=
  ⟨c7_call_errors_exit_70_silently.1 (.mk [] none) 6 rpTok,
   c7_call_errors_exit_70_silently.2
     (.mk [("f", .Expr (.Function fTok [aTok] [] (some (.mk [] none))))] none)
     fTok rpTok fTok aTok [] (.mk [] none) rfl⟩

/-- C8: the claim says a lexical error leaves the error flag set until
scanning finishes, so `tokenize` exits 65.  The code refutes it: on the
source `% "a"` the unexpected `%` is reported and sets the flag, but the
later successfully lexed string resets it (`*error_code = 0;` in the
string arm), so scanning finishes with flag 0 and `tokenize` exits 0. -/
theorem c8_error_flag_cleared_by_later_string :
    (scan_tokens "% \"a\"").stderr
      = ["[line 1] Error: Unexpected character: %"] ∧
    (scan_tokens "% \"a\"").error_code = 0 ∧
    tokenize_exit_code "% \"a\"" = 0 ∧ (0 : Nat) ≠ 65 :=
  ⟨rfl, rfl, rfl, by decide⟩

/-- C9 counterexample: the lexer gives the literal `3.1400` fractional
count 4 and `3.14` count 2, their parsed values coincide, and
`print_based_on_literal` renders the two tokens *identically* — so they
cannot render as `3.1400` and `3.14` respectively, contradicting the
claim that the count is used and trailing zeros are preserved. -/
theorem c9_counterexample :
    ((scan_tokens "3.1400").tokens.map fun t =>
      (t.token_type,
        match t.literal with | some (.Number f) => some f.2 | _ => none))
      = [(.NUMBER, some 4), (.EOF, none)] ∧
    parseDecimal "3.1400".toList = parseDecimal "3.14".toList ∧
    print_based_on_literal (.Number (parseDecimal "3.1400".toList, 4))
      = print_based_on_literal (.Number (parseDecimal "3.14".toList, 2)) ∧
    "3.1400" ≠ "3.14" := by
  have hval : parseDecimal "3.1400".toList = parseDecimal "3.14".toList := by
    show ((3 : ℕ) : ℚ) + ((1400 : ℕ) : ℚ) / 10 ^ 4
        = ((3 : ℕ) : ℚ) + ((14 : ℕ) : ℚ) / 10 ^ 2
    norm_num
  refine ⟨rfl, hval, ?_, by decide⟩
  rw [hval]
  rfl

/-- C9 (amended): the canonical rendering of a number token is computed
from the numeric value alone — the recorded fractional-digit count is
never consulted, so trailing zeros are not preserved; an integral value
(denominator 1) renders as its integer part followed by `.0`, which is
the claim's surviving half (`42` → `42.0`). -/
theorem c9_rendering_ignores_fraction_count :
    (∀ (v : ℚ) (c1 c2 : ℕ),
      print_based_on_literal (.Number (v, c1))
        = print_based_on_literal (.Number (v, c2))) ∧
    (∀ (v : ℚ) (c : ℕ), v.den = 1 →
      print_based_on_literal (.Number (v, c)) = toString v.num ++ ".0") := by
  constructor
  · intro v c1 c2
    rfl
  · intro v c hden
    have hv : ((v.num : ℚ)) = v := by
      rw [← Rat.num_div_den v, hden]
      simp
    have htr : ratTrunc v = v.num := by
      unfold ratTrunc
      by_cases h0 : 0 ≤ v
      · rw [if_pos h0, Rat.floor_def, hden]
        simp
      · rw [if_neg h0, Rat.floor_def, Rat.neg_den, hden, Rat.neg_num]
        simp
    have hrem : remOneAbs v < f64Epsilon := by
      unfold remOneAbs
      rw [htr, hv]
      simp only [sub_self, abs_zero, f64Epsilon]
      positivity
    simp only [print_based_on_literal]
    rw [if_pos hrem]
    simp only [numToString, if_pos hden]

/-- C9 witness: the token of the literal `42` renders as `42.0`. -/
theorem c9_rendering_ignores_fraction_count_witness :
    print_based_on_literal (.Number (42, 0)) = "42.0" := by
  have h := c9_rendering_ignores_fraction_count.2 42 0 rfl
  simpa using h

/-- C10: dividing two numbers never raises a runtime error and always
yields a number — the divisor is not inspected, so a zero divisor is
not trapped.  First over the `Float` mirror of the `SLASH` arm (the
result is the raw IEEE-754 quotient, infinity or NaN included), then
through the evaluator on number literals (`ℚ` payloads), where the
result is the untrapped quotient of the payloads. -/
theorem c10_division_never_errors :
    (∀ a b : Float,
      evalSlashFloat (.Number a) (.Number b) = .ok (.Number (a / b))) ∧
    (∀ (n1 n2 : ℚ) (env : Environment),
      evaluate 4 (.Binary slashTok (.Literal (.Number (n2, 0)))
          (.Literal (.Number (n1, 0)))) env none
        = .ok (.Expr (.Number (n1 / n2)), env, [])) :=
  ⟨fun _ _ => rfl, fun _ _ _ => rfl⟩

end LoxIntp
